import Mathlib

/-!
Shallow embedding of the search-orchestration core of the google-search-mcp
repository: the operation store (`SearchDatabase`), the location rotation
manager (`LocationManager`), the result pipeline (deduplication, relevance
scoring, AI filter-response parsing) and the search operation orchestrator
(`SearchOrchestrator`).  JavaScript numbers that the code only ever uses as
exact integers are modelled by `Nat`/`Int`; fractional values (success rates,
progress, relevance scores) by `ℚ`; JS `undefined` by `Option`.
-/

namespace GoogleSearchMCP

/-- Status enum of a search operation (column `status` of `search_operations`,
checked against the five literals by the schema). -/
inductive OpStatus
  | pending
  | running
  | completed
  | failed
  | cancelled
deriving DecidableEq, Repr

/-- A persisted `SearchOperation` record (table `search_operations` /
interface `SearchOperation`).  Timestamps are milliseconds since the epoch;
`config` is the stored JSON snapshot, which no update ever touches. -/
structure SearchOperation where
  id : String
  query : String
  status : OpStatus
  startTime : Int
  endTime : Option Int
  totalLocations : Nat
  searchedLocations : Nat
  totalResults : Nat
  currentLocation : Option String
  progress : ℚ
  error : Option String
  config : String
deriving DecidableEq, Repr

/-- The `Partial<SearchOperation>` argument of
`SearchDatabase.updateSearchOperation`; `none` is JS `undefined`
(field absent from the update). -/
structure OpUpdates where
  status : Option OpStatus := none
  endTime : Option Int := none
  searchedLocations : Option Nat := none
  totalResults : Option Nat := none
  currentLocation : Option String := none
  progress : Option ℚ := none
  error : Option String := none
deriving DecidableEq, Repr

/-- One `field = ?` assignment pushed onto the `fields`/`values` arrays of
`updateSearchOperation`. -/
inductive FieldAssignment
  | setStatus (s : OpStatus)
  | setEndTime (t : Int)
  | setSearchedLocations (n : Nat)
  | setTotalResults (n : Nat)
  | setCurrentLocation (l : String)
  | setProgress (p : ℚ)
  | setError (e : String)
deriving DecidableEq, Repr

/-- The conditional `fields.push(...)` chain of `updateSearchOperation`,
in source order. -/
def buildUpdateFields (u : OpUpdates) : List FieldAssignment :=
  (match u.status with | some s => [FieldAssignment.setStatus s] | none => [])
    ++ (match u.endTime with | some t => [FieldAssignment.setEndTime t] | none => [])
    ++ (match u.searchedLocations with
        | some n => [FieldAssignment.setSearchedLocations n] | none => [])
    ++ (match u.totalResults with
        | some n => [FieldAssignment.setTotalResults n] | none => [])
    ++ (match u.currentLocation with
        | some l => [FieldAssignment.setCurrentLocation l] | none => [])
    ++ (match u.progress with | some p => [FieldAssignment.setProgress p] | none => [])
    ++ (match u.error with | some e => [FieldAssignment.setError e] | none => [])

/-- Effect of a single SQL `SET` assignment on a `search_operations` row. -/
def applyAssignment (op : SearchOperation) : FieldAssignment → SearchOperation
  | FieldAssignment.setStatus s => { op with status := s }
  | FieldAssignment.setEndTime t => { op with endTime := some t }
  | FieldAssignment.setSearchedLocations n => { op with searchedLocations := n }
  | FieldAssignment.setTotalResults n => { op with totalResults := n }
  | FieldAssignment.setCurrentLocation l => { op with currentLocation := some l }
  | FieldAssignment.setProgress p => { op with progress := p }
  | FieldAssignment.setError e => { op with error := some e }

/-- `SearchDatabase.updateSearchOperation` applied to one row: build the
assignment list from the supplied fields and run the generated `UPDATE`
(`fields.length === 0` short-circuits to a no-op, which coincides with
folding the empty list). -/
def updateSearchOperation (op : SearchOperation) (u : OpUpdates) : SearchOperation :=
  (buildUpdateFields u).foldl applyAssignment op

/-- Lookup in an association-list model of a keyed table / `Map`. -/
def dbLookup {α : Type} (db : List (String × α)) (key : String) : Option α :=
  (db.find? (fun p => p.1 == key)).map (fun p => p.2)

/-- `UPDATE search_operations SET ... WHERE id = ?` over the whole store. -/
def storeUpdateOperation (store : List (String × SearchOperation)) (id : String)
    (u : OpUpdates) : List (String × SearchOperation) :=
  store.map (fun p => if p.1 == id then (p.1, updateSearchOperation p.2 u) else p)

/-- Statistics columns of a `locations` row touched by
`SearchDatabase.updateLocationStats`. -/
structure LocationRow where
  totalSearches : Nat
  successfulSearches : Nat
  successRate : ℚ
  lastSearched : Option Int
deriving DecidableEq, Repr

/-- `SearchDatabase.updateLocationStats`: one SQL `UPDATE`; by SQLite
semantics every right-hand side reads the pre-update row, so the stored
rate is `(successful_searches + sv) / (total_searches + 1)` over the old
counters. -/
def updateLocationStats (row : LocationRow) (success : Bool) (now : Int) : LocationRow :=
  let sv : Nat := if success then 1 else 0
  { totalSearches := row.totalSearches + 1
    successfulSearches := row.successfulSearches + sv
    successRate := ((row.successfulSearches + sv : Nat) : ℚ) / ((row.totalSearches + 1 : Nat) : ℚ)
    lastSearched := some now }

/-- The same update run against the keyed `locations` table. -/
def dbUpdateLocationStats (db : List (String × LocationRow)) (id : String)
    (success : Bool) (now : Int) : List (String × LocationRow) :=
  db.map (fun p => if p.1 == id then (p.1, updateLocationStats p.2 success now) else p)

/-- A `Location` as kept by the `LocationManager` (fields its logic reads). -/
structure Location where
  id : String
  name : String
  country : String
  countryCode : String
  searchCode : String
  priority : Int
  isActive : Bool
  successRate : ℚ
deriving DecidableEq, Repr

/-- The `LocationQueue` state of the `LocationManager`: ordered list,
circular cursor, blacklist `Set` (modelled as a list of ids). -/
structure LocationQueue where
  locations : List Location
  currentIndex : Nat
  blacklistedLocations : List String
deriving DecidableEq, Repr

/-- The sort comparator of `initialize`/`updateLocationSuccess`:
`b.priority - a.priority`, ties by `b.successRate - a.successRate`, i.e.
`a` comes no later than `b` when `a` has higher priority, or equal priority
and at-least-equal success rate. -/
def locBefore (a b : Location) : Prop :=
  b.priority < a.priority ∨ (a.priority = b.priority ∧ b.successRate ≤ a.successRate)

instance : DecidableRel locBefore := fun _a _b =>
  inferInstanceAs (Decidable (_ ∨ _))

instance : IsTotal Location locBefore where
  total a b := by
    rcases lt_trichotomy a.priority b.priority with h | h | h
    · exact Or.inr (Or.inl h)
    · rcases le_total b.successRate a.successRate with hs | hs
      · exact Or.inl (Or.inr ⟨h, hs⟩)
      · exact Or.inr (Or.inr ⟨h.symm, hs⟩)
    · exact Or.inl (Or.inl h)

instance : IsTrans Location locBefore where
  trans a b c hab hbc := by
    rcases hab with h1 | ⟨h1, h1'⟩
    · rcases hbc with h2 | ⟨h2, _⟩
      · exact Or.inl (h2.trans h1)
      · exact Or.inl (h2 ▸ h1)
    · rcases hbc with h2 | ⟨h2, h2'⟩
      · exact Or.inl (h1 ▸ h2)
      · exact Or.inr ⟨h1.trans h2, h2'.trans h1'⟩

/-- The in-place `Array.prototype.sort` with the priority/success-rate
comparator (stable in JS engines; modelled by a stable sort). -/
def sortLocations (locs : List Location) : List Location :=
  List.insertionSort locBefore locs

/-- `LocationManager.initialize` after loading `locs`: sort and reset the
cursor; the blacklist starts empty. -/
def initQueue (locs : List Location) : LocationQueue :=
  { locations := sortLocations locs, currentIndex := 0, blacklistedLocations := [] }

/-- The scan loop of `getNextLocation`: at most `fuel` (= list length)
attempts; an in-bounds, non-blacklisted entry is returned and the cursor
advanced past it modulo the length; otherwise the cursor advances and the
attempt counter grows. -/
def getNextLocationAux (locs : List Location) (blacklist : List String) :
    Nat → Nat → Option Location × Nat
  | idx, 0 => (none, idx)
  | idx, fuel + 1 =>
    match locs[idx]? with
    | some loc =>
      if loc.id ∈ blacklist then
        getNextLocationAux locs blacklist ((idx + 1) % locs.length) fuel
      else
        (some loc, (idx + 1) % locs.length)
    | none => getNextLocationAux locs blacklist ((idx + 1) % locs.length) fuel

/-- `LocationManager.getNextLocation` (post-initialization): returns the
selected location, if any, together with the updated queue state. -/
def getNextLocation (q : LocationQueue) : Option Location × LocationQueue :=
  if q.locations.length = 0 then (none, q)
  else
    let r := getNextLocationAux q.locations q.blacklistedLocations
      q.currentIndex q.locations.length
    (r.1, { q with currentIndex := r.2 })

/-- `k` successive calls of `getNextLocation`, collecting the results. -/
def callNextLocations (q : LocationQueue) : Nat → List (Option Location) × LocationQueue
  | 0 => ([], q)
  | k + 1 =>
    let r := getNextLocation q
    let rest := callNextLocations r.2 k
    (r.1 :: rest.1, rest.2)

/-- Blacklist bookkeeping of the `LocationManager`: the blacklist `Set`
plus the pending `setTimeout` deletion callbacks, each a (fire time, id)
pair.  `blacklistLocation` stores no timer handle. -/
structure BlacklistState where
  blacklisted : List String
  timers : List (Nat × String)
deriving DecidableEq, Repr

/-- JS `Set.prototype.add` on the list model. -/
def setAdd (s : List String) (x : String) : List String :=
  if x ∈ s then s else s ++ [x]

/-- `LocationManager.blacklistLocation`: add the id to the blacklist and
schedule a deletion after `duration`; the previously scheduled timer for
the same id, if any, is left pending. -/
def blacklistLocation (st : BlacklistState) (now : Nat) (locationId : String)
    (duration : Nat) : BlacklistState :=
  { blacklisted := setAdd st.blacklisted locationId
    timers := st.timers ++ [(now + duration, locationId)] }

/-- Advance the clock to `now`: every due `setTimeout` callback fires and
deletes its id from the blacklist; due timers are consumed. -/
def fireTimers (st : BlacklistState) (now : Nat) : BlacklistState :=
  { blacklisted := st.blacklisted.filter
      (fun id => !(st.timers.any (fun t => decide (t.1 ≤ now) && t.2 == id)))
    timers := st.timers.filter (fun t => !(decide (t.1 ≤ now))) }

/-- A transient pipeline `SearchResult`. -/
structure SearchResult where
  title : String
  url : String
  snippet : String
  displayUrl : String
  source : String
  relevanceScore : Option ℚ
deriving DecidableEq, Repr

/-- JS `String.prototype.includes`: `pat` occurs in `hay` (chars). -/
def charsContain (hay pat : List Char) : Bool :=
  match hay with
  | [] => pat.isEmpty
  | _ :: rest => pat.isPrefixOf hay || charsContain rest pat

/-- JS `String.prototype.toLowerCase` on the character list. -/
def lowerChars (s : String) : List Char :=
  s.data.map Char.toLower

/-- JS `String.prototype.split(' ')`: split at every single space,
`"".split(' ') = [""]`. -/
def splitOnSpace : List Char → List (List Char)
  | [] => [[]]
  | c :: rest =>
    let r := splitOnSpace rest
    if c = ' ' then [] :: r
    else
      match r with
      | [] => [[c]]
      | w :: ws => (c :: w) :: ws

/-- The keyword list of `calculateRelevanceScore`. -/
def professionalKeywords : List (List Char) :=
  ["ceo", "cto", "manager", "director", "engineer", "developer", "analyst",
    "consultant"].map String.data

/-- `GoogleSearchEngine.calculateRelevanceScore` on an item with the given
`title`, `snippet` and `link` for a query/location pair.  In JS, when no
query term is longer than two characters, `titleMatches / queryTerms.length`
is `0 / 0 = NaN`; `NaN` propagates through `+`, `*` and `Math.min`, so the
whole score is `NaN` — modelled as `none`. -/
def calculateRelevanceScore (title snippet link query : String)
    (location : Option String) : Option ℚ :=
  let titleL := lowerChars title
  let snippetL := lowerChars snippet
  let queryL := lowerChars query
  let linkedinBonus : ℚ :=
    if charsContain link.data ("linkedin.com/in/".data) then 3/10 else 0
  let queryTerms := (splitOnSpace queryL).filter (fun t => t.length > 2)
  if queryTerms.length = 0 then none
  else
    let titleMatches := (queryTerms.filter (fun t => charsContain titleL t)).length
    let snippetMatches := (queryTerms.filter (fun t => charsContain snippetL t)).length
    let professionalMatches := (professionalKeywords.filter
      (fun k => charsContain titleL k || charsContain snippetL k)).length
    let locationBonus : ℚ :=
      match location with
      | some loc =>
        if charsContain titleL (lowerChars loc) || charsContain snippetL (lowerChars loc)
        then 1/10 else 0
      | none => 0
    let score : ℚ := 1/2 + linkedinBonus
      + ((titleMatches : ℚ) / (queryTerms.length : ℚ)) * (3/10)
      + ((snippetMatches : ℚ) / (queryTerms.length : ℚ)) * (1/5)
      + min ((professionalMatches : ℚ) * (1/10)) (1/5)
      + locationBonus
    some (min score 1)

/-- Find the `"://"` separator: returns the scheme characters and the rest. -/
def splitScheme (acc : List Char) : List Char → Option (List Char × List Char)
  | ':' :: '/' :: '/' :: rest => some (acc.reverse, rest)
  | c :: rest => splitScheme (c :: acc) rest
  | [] => none

/-- Model of `new URL(url)` restricted to the three components
`SearchEngineManager.normalizeUrl` reads: lower-cased scheme and host, and
the path cut off at the first `?` or `#` (WHATWG parsing of well-formed
absolute URLs; other inputs count as parse failures). -/
def parseUrl (url : String) : Option (List Char × List Char × List Char) :=
  match splitScheme [] url.data with
  | none => none
  | some (scheme, rest) =>
    if scheme.isEmpty || !(scheme.all Char.isAlpha) then none
    else
      let host := rest.takeWhile (fun c => !(c == '/') && !(c == '?') && !(c == '#'))
      let tail := rest.drop host.length
      let path :=
        match tail with
        | '/' :: _ => tail.takeWhile (fun c => !(c == '?') && !(c == '#'))
        | _ => ['/']
      if host.isEmpty then none
      else some (scheme.map Char.toLower, host.map Char.toLower, path)

/-- `SearchEngineManager.normalizeUrl`:
`protocol + "//" + host + pathname` on parse success, the raw URL on
failure. -/
def normalizeUrl (url : String) : String :=
  match parseUrl url with
  | some (scheme, host, path) =>
    String.mk (scheme ++ (':' :: '/' :: '/' :: []) ++ host ++ path)
  | none => url

/-- The loop body of `SearchEngineManager.deduplicateResults`: `seen` is
the `Set` of normalized URLs met so far. -/
def dedupAux (seen : List String) : List SearchResult → List SearchResult
  | [] => []
  | r :: rs =>
    let k := normalizeUrl r.url
    if k ∈ seen then dedupAux seen rs
    else r :: dedupAux (k :: seen) rs

/-- `SearchEngineManager.deduplicateResults`. -/
def deduplicateResults (results : List SearchResult) : List SearchResult :=
  dedupAux [] results

/-- The `filterResults` response record (`ResultFilterResponse`), generic in
the result type just as the JS `originalResults: any[]`. -/
structure FilterResponse (α : Type) where
  filteredResults : List α
  removedCount : Int
  reasoning : Option String
deriving DecidableEq, Repr

/-- `content.match(/\x7b[\s\S]*\x7d/)`: greedy — the slice from the first
opening brace through the last closing brace, when the latter comes
strictly later. -/
def matchJsonBlock (content : String) : Option (List Char) :=
  let cs := content.data
  match cs.findIdx? (fun c => c == '{'), cs.reverse.findIdx? (fun c => c == '}') with
  | some i, some jr =>
    let j := cs.length - 1 - jr
    if i < j then some ((cs.drop i).take (j - i + 1)) else none
  | _, _ => none

/-- `AIProviderManager.parseResultFilterResponse`.  `JSON.parse` and the
subsequent property reads are the platform's; they enter the model as the
oracle `jsonParse`, returning `none` when anything in the `try` block
throws, and otherwise the `relevantIndices` field (`none` for an
absent/falsy field, which `|| []` turns into the empty list) together with
the `reasoning` field. -/
def parseResultFilterResponse {α : Type}
    (jsonParse : List Char → Option (Option (List Int) × Option String))
    (content : String) (originalResults : List α) : FilterResponse α :=
  match matchJsonBlock content with
  | some block =>
    match jsonParse block with
    | some (indicesOpt, reasoning) =>
      let relevantIndices := indicesOpt.getD []
      let valid := relevantIndices.filter
        (fun i => decide (0 ≤ i) && decide (i < (originalResults.length : Int)))
      let filteredResults := valid.filterMap (fun i => originalResults[i.toNat]?)
      { filteredResults := filteredResults
        removedCount := (originalResults.length : Int) - (filteredResults.length : Int)
        reasoning := reasoning }
    | none =>
      { filteredResults := originalResults
        removedCount := 0
        reasoning := some "Failed to parse response, returned all results" }
  | none =>
    { filteredResults := originalResults
      removedCount := 0
      reasoning := some "Failed to parse filter response, returned all results" }

/-- Outcome of the per-location `try` block of
`SearchOrchestrator.processGlobalSearch`: the location either yields
`resultCount` stored results, or throws a location-level exception. -/
inductive LocOutcome
  | ok (resultCount : Nat)
  | err
deriving DecidableEq, Repr

/-- One iteration's inputs in a `processGlobalSearch` run: the location
name, the outcome of its `try` block, and whether the operation had been
removed from `activeOperations` (cancelled) when the iteration starts. -/
structure LocStep where
  name : String
  outcome : LocOutcome
  cancelled : Bool
deriving DecidableEq, Repr

/-- The operation-record fields `processGlobalSearch` writes (in memory and,
field for field, through `updateSearchOperation` to the store). -/
structure RunState where
  status : OpStatus
  searchedLocations : Nat
  totalResults : Nat
  progress : ℚ
  currentLocation : Option String
  endTime : Option Int
deriving DecidableEq, Repr

attribute [ext] RunState

/-- The completion block after the location loop: `completed`, end time,
`progress = 1.0`. -/
def completeOp (st : RunState) (now : Int) : RunState :=
  { st with status := OpStatus.completed, endTime := some now, progress := 1 }

/-- The location loop of `processGlobalSearch` over the remaining steps.
`n` is `locations.length` (= `totalLocations`), `i` the loop index, and
`consecutiveFailures` the failure counter; a cancelled iteration returns
at the loop boundary without further writes; a location-level exception
increments the counter (the location is also blacklisted and its stats
updated — state of the location manager, not of this record) and three
consecutive failures break out to the completion block; a success stores
the results, sets `searchedLocations = i + 1` and resets the counter to
zero.  `now` is the completion timestamp. -/
def runLocationLoop (n : Nat) (now : Int) :
    List LocStep → Nat → Nat → RunState → RunState
  | [], _, _, st => completeOp st now
  | step :: rest, i, consecutiveFailures, st =>
    if step.cancelled then st
    else
      let st1 := { st with currentLocation := some step.name
                           progress := (i : ℚ) / (n : ℚ) }
      match step.outcome with
      | LocOutcome.ok resultCount =>
        let st2 := { st1 with totalResults := st1.totalResults + resultCount
                              searchedLocations := i + 1 }
        runLocationLoop n now rest (i + 1) 0 st2
      | LocOutcome.err =>
        if consecutiveFailures + 1 ≥ 3 then completeOp st1 now
        else runLocationLoop n now rest (i + 1) (consecutiveFailures + 1) st1

/-- A whole `processGlobalSearch` run over its precomputed work queue:
status is set to `running`, then the loop processes the steps. -/
def processGlobalSearch (steps : List LocStep) (now : Int) : RunState :=
  runLocationLoop steps.length now steps 0 0
    { status := OpStatus.running, searchedLocations := 0, totalResults := 0,
      progress := 0, currentLocation := none, endTime := none }

/-- The run aborts via the consecutive-failure `break`, starting from the
given counter value: an `ok` step resets the counter, an `err` step either
trips the threshold or continues with the incremented counter. -/
def abortsFrom : Nat → List LocStep → Prop
  | _, [] => False
  | consecutiveFailures, step :: rest =>
    match step.outcome with
    | LocOutcome.ok _ => abortsFrom 0 rest
    | LocOutcome.err =>
      consecutiveFailures + 1 ≥ 3 ∨ abortsFrom (consecutiveFailures + 1) rest

/-- Step `i` of the queue exists and throws a location-level exception. -/
def errAt (steps : List LocStep) (i : Nat) : Prop :=
  ∃ step, steps[i]? = some step ∧ step.outcome = LocOutcome.err

/-- In-memory state of the `SearchOrchestrator` next to the store: the
`activeOperations` map and the persisted `search_operations` table. -/
structure OrchestratorState where
  activeOperations : List (String × SearchOperation)
  store : List (String × SearchOperation)
deriving DecidableEq, Repr

/-- `SearchOrchestrator.cancelSearch`: an id absent from `activeOperations`
returns `false` and changes nothing; otherwise the operation is marked
`cancelled` with an end time, that partial update is persisted through
`updateSearchOperation`, the id is deleted from the active map, and the
call returns `true`. -/
def cancelSearch (st : OrchestratorState) (operationId : String) (now : Int) :
    Bool × OrchestratorState :=
  match dbLookup st.activeOperations operationId with
  | none => (false, st)
  | some _ =>
    (true,
      { activeOperations := st.activeOperations.filter (fun p => !(p.1 == operationId))
        store := storeUpdateOperation st.store operationId
          { status := some OpStatus.cancelled, endTime := some now } })

/-- The progress view assembled by `getSearchProgress`. -/
structure SearchProgress where
  operationId : String
  status : OpStatus
  progress : ℚ
  currentLocation : Option String
  searchedLocations : Nat
  totalLocations : Nat
  resultsFound : Nat
  estimatedTimeRemaining : Option Int
deriving DecidableEq, Repr

/-- `SearchOrchestrator.calculateEstimatedTime`: `0` for `completed` or
`failed`; no estimate before the first searched location; otherwise
`Math.round` of elapsed-per-location times the remaining location count. -/
def calculateEstimatedTime (operation : SearchOperation) (now : Int) : Option Int :=
  if operation.status = OpStatus.completed ∨ operation.status = OpStatus.failed then
    some 0
  else if operation.searchedLocations = 0 then none
  else
    let elapsed : ℚ := ((now - operation.startTime : Int) : ℚ)
    let avgTimePerLocation := elapsed / (operation.searchedLocations : ℚ)
    let remainingLocations : ℚ :=
      (operation.totalLocations : ℚ) - (operation.searchedLocations : ℚ)
    some (round (avgTimePerLocation * remainingLocations))

/-- `SearchOrchestrator.getSearchProgress`: read the persisted record and
attach the estimate (the field is present exactly when the estimate is
defined). -/
def getSearchProgress (store : List (String × SearchOperation))
    (operationId : String) (now : Int) : Option SearchProgress :=
  (dbLookup store operationId).map fun operation =>
    { operationId := operation.id
      status := operation.status
      progress := operation.progress
      currentLocation := operation.currentLocation
      searchedLocations := operation.searchedLocations
      totalLocations := operation.totalLocations
      resultsFound := operation.totalResults
      estimatedTimeRemaining := calculateEstimatedTime operation now }

/-- A high-priority location for the C3 witness. -/
def locUS : Location :=
  ⟨"loc-us", "United States", "United States", "US", "US", 10, true, 0⟩

/-- A lower-priority location for the C3 witness. -/
def locUK : Location :=
  ⟨"loc-uk", "United Kingdom", "United Kingdom", "GB", "GB", 9, true, 0⟩

/-- The C1 witness queue: a success, three consecutive failures, and a
trailing location that is never reached. -/
def stepsEx : List LocStep :=
  [⟨"A", LocOutcome.ok 2, false⟩, ⟨"B", LocOutcome.err, false⟩,
   ⟨"C", LocOutcome.err, false⟩, ⟨"D", LocOutcome.err, false⟩,
   ⟨"E", LocOutcome.ok 5, false⟩]

/-! ## Shared lemmas about the association-list store -/

theorem dbLookup_map_update {α : Type} (db : List (String × α)) (id : String)
    (f : α → α) :
    dbLookup (db.map (fun p => if p.1 == id then (p.1, f p.2) else p)) id
      = (dbLookup db id).map f := by
  induction db with
  | nil => rfl
  | cons hd tl ih =>
    by_cases h : hd.1 = id
    · simp [dbLookup, List.find?, h]
    · have hb : (hd.1 == id) = false := beq_false_of_ne h
      simpa [dbLookup, List.find?, hb] using ih

theorem dbLookup_filter_out {α : Type} (db : List (String × α)) (id : String) :
    dbLookup (db.filter (fun p => !(p.1 == id))) id = none := by
  induction db with
  | nil => rfl
  | cons hd tl ih =>
    by_cases h : hd.1 = id
    · have hb : (hd.1 == id) = true := beq_iff_eq.mpr h
      simp only [List.filter_cons, hb, Bool.not_true, Bool.false_eq_true, if_false]
      exact ih
    · have hb : (hd.1 == id) = false := beq_false_of_ne h
      have hst : List.filter (fun p => !(p.1 == id)) (hd :: tl)
          = hd :: List.filter (fun p => !(p.1 == id)) tl := by
        simp [List.filter_cons, hb]
      rw [hst]
      show (List.find? (fun p => p.1 == id)
        (hd :: List.filter (fun p => !(p.1 == id)) tl)).map (fun p => p.2) = none
      rw [List.find?_cons_of_neg _ (by simp [hb])]
      exact ih

/-! ## Claim theorems -/

set_option maxHeartbeats 2000000 in
/-- C9: `updateSearchOperation` sets exactly the supplied fields among
status, endTime, searchedLocations, totalResults, currentLocation,
progress and error — each independently settable — and leaves every
omitted field of the record (including id, query, startTime,
totalLocations and config) unchanged. -/
theorem updateSearchOperation_frame (op : SearchOperation) (u : OpUpdates) :
    (updateSearchOperation op u).id = op.id ∧
    (updateSearchOperation op u).query = op.query ∧
    (updateSearchOperation op u).startTime = op.startTime ∧
    (updateSearchOperation op u).totalLocations = op.totalLocations ∧
    (updateSearchOperation op u).config = op.config ∧
    (updateSearchOperation op u).status = u.status.getD op.status ∧
    (updateSearchOperation op u).endTime = (u.endTime.map some).getD op.endTime ∧
    (updateSearchOperation op u).searchedLocations
      = u.searchedLocations.getD op.searchedLocations ∧
    (updateSearchOperation op u).totalResults = u.totalResults.getD op.totalResults ∧
    (updateSearchOperation op u).currentLocation
      = (u.currentLocation.map some).getD op.currentLocation ∧
    (updateSearchOperation op u).progress = u.progress.getD op.progress ∧
    (updateSearchOperation op u).error = (u.error.map some).getD op.error := by
  obtain ⟨s, e, sl, tr, cl, p, er⟩ := u
  cases s <;> cases e <;> cases sl <;> cases tr <;> cases cl <;> cases p <;> cases er <;>
    simp [updateSearchOperation, buildUpdateFields, applyAssignment]

/-- C4: after `updateLocationStats`, the stored success rate equals
`successfulSearches / totalSearches` computed over the post-update
counters; a fresh location (all-zero counters) recording a success and
then a failure ends at `successRate = 1/2` and `totalSearches = 2`. -/
theorem updateLocationStats_rate (db : List (String × LocationRow)) (id : String)
    (row : LocationRow) (success : Bool) (now : Int)
    (h : dbLookup db id = some row) :
    (∃ row', dbLookup (dbUpdateLocationStats db id success now) id = some row' ∧
       row'.successRate = (row'.successfulSearches : ℚ) / (row'.totalSearches : ℚ) ∧
       row'.totalSearches = row.totalSearches + 1 ∧
       row'.successfulSearches
         = row.successfulSearches + (if success then 1 else 0)) ∧
    (updateLocationStats (updateLocationStats ⟨0, 0, 0, none⟩ true now) false now).successRate
      = 1/2 ∧
    (updateLocationStats (updateLocationStats ⟨0, 0, 0, none⟩ true now) false now).totalSearches
      = 2 := by
  refine ⟨⟨updateLocationStats row success now, ?_, rfl, rfl, rfl⟩, ?_, rfl⟩
  · have hmap := dbLookup_map_update db id (fun r => updateLocationStats r success now)
    have h2 : (dbLookup db id).map (fun r => updateLocationStats r success now)
        = some (updateLocationStats row success now) := by rw [h]; rfl
    exact hmap.trans h2
  · show ((0 + 1 + 0 : Nat) : ℚ) / ((0 + 1 + 1 : Nat) : ℚ) = 1 / 2
    norm_num

/-- C4 witness: the invariant and the fresh-location scenario at a
one-row table. -/
theorem updateLocationStats_rate_witness :
    (∃ row', dbLookup (dbUpdateLocationStats [("loc-9", ⟨3, 1, 1/3, none⟩)] "loc-9" true 7)
         "loc-9" = some row' ∧
       row'.successRate = (row'.successfulSearches : ℚ) / (row'.totalSearches : ℚ) ∧
       row'.totalSearches = (3 : Nat) + 1 ∧
       row'.successfulSearches = (1 : Nat) + (if true then 1 else 0)) ∧
    (updateLocationStats (updateLocationStats ⟨0, 0, 0, none⟩ true 7) false 7).successRate
      = 1/2 ∧
    (updateLocationStats (updateLocationStats ⟨0, 0, 0, none⟩ true 7) false 7).totalSearches
      = 2 :=
  updateLocationStats_rate [("loc-9", ⟨3, 1, 1/3, none⟩)] "loc-9" ⟨3, 1, 1/3, none⟩
    true 7 rfl

/-- C10: the code does NOT cancel the previously scheduled expiry timer on
re-blacklist — it stacks a second one.  Blacklisting `loc-1` at time 0 for
an hour and re-blacklisting at time 1800000 for an hour leaves the first
timer pending; at time 3600000 that timer fires and empties the blacklist,
1800000 ms after the re-blacklist call and before its 3600000 ms duration
has elapsed. -/
theorem blacklistLocation_stacks_timers :
    ((fireTimers (blacklistLocation ⟨[], []⟩ 0 "loc-1" 3600000) 1800000).blacklisted
       = ["loc-1"]) ∧
    ((fireTimers
        (blacklistLocation
          (fireTimers (blacklistLocation ⟨[], []⟩ 0 "loc-1" 3600000) 1800000)
          1800000 "loc-1" 3600000)
        3600000).blacklisted = []) ∧
    3600000 < 1800000 + 3600000 := by
  refine ⟨rfl, rfl, by norm_num⟩

/-- C5: the relevance score is NOT always a real number in [0,1]: whenever
the query has no token longer than two characters (in particular the empty
query), `titleMatches / queryTerms.length` is `0 / 0 = NaN` in JS and the
returned score is `NaN` (modelled `none`), even for perfectly ordinary
titles and snippets. -/
theorem calculateRelevanceScore_nan :
    calculateRelevanceScore "Jane Doe | Engineer at Acme - LinkedIn" "works at Acme"
      "https://linkedin.com/in/janedoe" "" none = none ∧
    calculateRelevanceScore "" "" "" "" none = none ∧
    calculateRelevanceScore "Data Analyst" "analyst at Acme" "https://a.com" "ai" none
      = none := by
  refine ⟨rfl, rfl, rfl⟩

/-- C6 counterexample: a `cancelled` operation is not treated as terminal
by `calculateEstimatedTime`: cancelled after 1 of 3 locations with 1000 ms
elapsed, the estimate is 2000 ms, not 0. -/
theorem calculateEstimatedTime_cancelled_nonzero :
    (SearchOperation.mk "op-1" "q" OpStatus.cancelled 0 (some 500) 3 1 4
        (some "Boston") (1/3) none "cfg").status = OpStatus.cancelled ∧
    calculateEstimatedTime
      (SearchOperation.mk "op-1" "q" OpStatus.cancelled 0 (some 500) 3 1 4
        (some "Boston") (1/3) none "cfg") 1000 = some 2000 ∧
    (2000 : Int) ≠ 0 := by
  refine ⟨rfl, ?_, by norm_num⟩
  show some (round ((((1000 : Int) - 0 : Int) : ℚ) / ((1 : Nat) : ℚ)
    * (((3 : Nat) : ℚ) - ((1 : Nat) : ℚ)))) = some 2000
  norm_num

/-- C6 amended: `getSearchProgress` attaches
`round(elapsed / searchedLocations * (totalLocations - searchedLocations))`
as the estimate; the estimate is omitted when `searchedLocations = 0` and
the status is neither `completed` nor `failed`; it equals zero when the
status is `completed` or `failed` — a `cancelled` operation is not
special-cased and is estimated like a running one. -/
theorem calculateEstimatedTime_spec (operation : SearchOperation) (now : Int) :
    (operation.status = OpStatus.completed ∨ operation.status = OpStatus.failed →
       calculateEstimatedTime operation now = some 0) ∧
    (¬(operation.status = OpStatus.completed ∨ operation.status = OpStatus.failed) →
       operation.searchedLocations = 0 →
       calculateEstimatedTime operation now = none) ∧
    (¬(operation.status = OpStatus.completed ∨ operation.status = OpStatus.failed) →
       operation.searchedLocations ≠ 0 →
       calculateEstimatedTime operation now
         = some (round (((now - operation.startTime : Int) : ℚ)
             / (operation.searchedLocations : ℚ)
             * ((operation.totalLocations : ℚ) - (operation.searchedLocations : ℚ))))) ∧
    (∀ store id, dbLookup store id = some operation →
       getSearchProgress store id now = some
         { operationId := operation.id
           status := operation.status
           progress := operation.progress
           currentLocation := operation.currentLocation
           searchedLocations := operation.searchedLocations
           totalLocations := operation.totalLocations
           resultsFound := operation.totalResults
           estimatedTimeRemaining := calculateEstimatedTime operation now }) := by
  refine ⟨fun h => ?_, fun h hs => ?_, fun h hs => ?_, fun store id hid => ?_⟩
  · simp [calculateEstimatedTime, h]
  · simp [calculateEstimatedTime, h, hs]
  · simp [calculateEstimatedTime, h, hs]
  · simp [getSearchProgress, hid]

/-- C7: whenever the AI filter response is unparseable — no JSON object
extractable by the brace regex, or `JSON.parse` (and the subsequent field
handling) throws — `parseResultFilterResponse` returns the original result
list unchanged with `removedCount = 0`; in particular it never returns an
empty list merely because the response was unparseable. -/
theorem parseResultFilterResponse_fail_open {α : Type}
    (jsonParse : List Char → Option (Option (List Int) × Option String))
    (content : String) (originalResults : List α)
    (h : matchJsonBlock content = none ∨
         ∀ block, matchJsonBlock content = some block → jsonParse block = none) :
    (parseResultFilterResponse jsonParse content originalResults).filteredResults
      = originalResults ∧
    (parseResultFilterResponse jsonParse content originalResults).removedCount = 0 := by
  cases hm : matchJsonBlock content with
  | none => simp [parseResultFilterResponse, hm]
  | some block =>
    rcases h with h | h
    · rw [hm] at h; cases h
    · simp [parseResultFilterResponse, hm, h block hm]

/-- C7 witness: a braceless model answer with a throwing `JSON.parse`
leaves a three-element batch untouched. -/
theorem parseResultFilterResponse_fail_open_witness :
    (parseResultFilterResponse (fun _ => none)
        "I could not determine which results are relevant."
        [(1 : Nat), 2, 3]).filteredResults = [1, 2, 3] ∧
    (parseResultFilterResponse (fun _ => none)
        "I could not determine which results are relevant."
        [(1 : Nat), 2, 3]).removedCount = 0 :=
  parseResultFilterResponse_fail_open (fun _ => none)
    "I could not determine which results are relevant." [1, 2, 3] (Or.inl rfl)

/-! ## Deduplication lemmas (C8) -/

theorem dedupAux_congr (rs : List SearchResult) :
    ∀ seen seen', (∀ s, s ∈ seen ↔ s ∈ seen') → dedupAux seen rs = dedupAux seen' rs := by
  induction rs with
  | nil => intro _ _ _; rfl
  | cons r rs ih =>
    intro seen seen' hmem
    simp only [dedupAux]
    by_cases h : normalizeUrl r.url ∈ seen
    · rw [if_pos h, if_pos ((hmem _).mp h)]
      exact ih seen seen' hmem
    · rw [if_neg h, if_neg (fun hc => h ((hmem _).mpr hc))]
      exact congrArg (r :: ·) (ih _ _ (fun s => by simp [List.mem_cons, hmem s]))

theorem dedupAux_cons_seen (rs : List SearchResult) :
    ∀ seen k, dedupAux (k :: seen) rs
      = dedupAux seen (rs.filter (fun x => !(normalizeUrl x.url == k))) := by
  induction rs with
  | nil => intro _ _; rfl
  | cons x rs ih =>
    intro seen k
    by_cases hk : normalizeUrl x.url = k
    · have hb : (normalizeUrl x.url == k) = true := beq_iff_eq.mpr hk
      have hmem : normalizeUrl x.url ∈ k :: seen := by simp [hk]
      simp only [dedupAux, List.filter_cons, hb, Bool.not_true, Bool.false_eq_true,
        if_false, if_pos hmem]
      exact ih seen k
    · have hb : (normalizeUrl x.url == k) = false := beq_false_of_ne hk
      have hfil : List.filter (fun y => !(normalizeUrl y.url == k)) (x :: rs)
          = x :: List.filter (fun y => !(normalizeUrl y.url == k)) rs := by
        simp [List.filter_cons, hb]
      rw [hfil]
      by_cases hs : normalizeUrl x.url ∈ seen
      · have hmem : normalizeUrl x.url ∈ k :: seen := List.mem_cons_of_mem _ hs
        simp only [dedupAux, if_pos hmem, if_pos hs]
        exact ih seen k
      · have hmem : normalizeUrl x.url ∉ k :: seen := by
          simp [List.mem_cons, hk, hs]
        simp only [dedupAux, if_neg hmem, if_neg hs]
        refine congrArg (x :: ·) ?_
        calc dedupAux (normalizeUrl x.url :: k :: seen) rs
            = dedupAux (k :: normalizeUrl x.url :: seen) rs :=
              dedupAux_congr rs _ _ (fun s => by
                simp only [List.mem_cons]; tauto)
          _ = dedupAux (normalizeUrl x.url :: seen)
                (rs.filter (fun y => !(normalizeUrl y.url == k))) := ih _ k

theorem dedupAux_fresh_pairwise (rs : List SearchResult) :
    ∀ seen, (∀ x ∈ dedupAux seen rs, normalizeUrl x.url ∉ seen) ∧
      (dedupAux seen rs).Pairwise (fun a b => normalizeUrl a.url ≠ normalizeUrl b.url) := by
  induction rs with
  | nil => intro seen; exact ⟨fun x hx => absurd hx (List.not_mem_nil x), List.Pairwise.nil⟩
  | cons r rs ih =>
    intro seen
    simp only [dedupAux]
    by_cases h : normalizeUrl r.url ∈ seen
    · rw [if_pos h]; exact ih seen
    · rw [if_neg h]
      obtain ⟨hfresh, hpw⟩ := ih (normalizeUrl r.url :: seen)
      refine ⟨?_, ?_⟩
      · intro x hx
        rcases List.mem_cons.mp hx with rfl | hx
        · exact h
        · exact fun hc => hfresh x hx (List.mem_cons_of_mem _ hc)
      · refine List.Pairwise.cons ?_ hpw
        intro x hx hc
        exact hfresh x hx (by rw [← hc]; exact List.mem_cons_self _ _)

theorem dedupAux_of_fresh (rs : List SearchResult) :
    ∀ seen, (∀ x ∈ rs, normalizeUrl x.url ∉ seen) →
      rs.Pairwise (fun a b => normalizeUrl a.url ≠ normalizeUrl b.url) →
      dedupAux seen rs = rs := by
  induction rs with
  | nil => intro _ _ _; rfl
  | cons r rs ih =>
    intro seen hfresh hpw
    have h : normalizeUrl r.url ∉ seen := hfresh r (List.mem_cons_self _ _)
    simp only [dedupAux, if_neg h]
    refine congrArg (r :: ·) (ih _ ?_ (List.Pairwise.sublist (List.sublist_cons_self _ _) hpw))
    intro x hx
    have hne : normalizeUrl r.url ≠ normalizeUrl x.url :=
      (List.pairwise_cons.mp hpw).1 x hx
    intro hc
    rcases List.mem_cons.mp hc with hc | hc
    · exact hne hc.symm
    · exact hfresh x (List.mem_cons_of_mem _ hx) hc

/-- C8: `deduplicateResults` keys each result by `normalizeUrl` (scheme +
host + path, query string and fragment stripped), keeps the first
occurrence of each key, drops every later result with the same key within
the batch, and is idempotent. -/
theorem deduplicateResults_spec :
    (∀ (r : SearchResult) (rs : List SearchResult),
       deduplicateResults (r :: rs)
         = r :: deduplicateResults
             (rs.filter (fun x => !(normalizeUrl x.url == normalizeUrl r.url)))) ∧
    (∀ rs : List SearchResult,
       deduplicateResults (deduplicateResults rs) = deduplicateResults rs) ∧
    normalizeUrl "https://www.Example.com/People/jane?ref=42&x=1#top"
      = "https://www.example.com/People/jane" ∧
    normalizeUrl "https://www.example.com/People/jane"
      = "https://www.example.com/People/jane" := by
  refine ⟨?_, ?_, rfl, rfl⟩
  · intro r rs
    show dedupAux [] (r :: rs) = _
    simp only [dedupAux, if_neg (List.not_mem_nil _)]
    exact congrArg (r :: ·) (dedupAux_cons_seen rs [] _)
  · intro rs
    obtain ⟨hfresh, hpw⟩ := dedupAux_fresh_pairwise rs []
    exact dedupAux_of_fresh _ [] (fun x _ => List.not_mem_nil _) hpw

/-! ## Location rotation lemmas (C3) -/

theorem callNextLocations_succ (q : LocationQueue) (k : Nat) :
    callNextLocations q (k + 1)
      = ((getNextLocation q).1 :: (callNextLocations (getNextLocation q).2 k).1,
         (callNextLocations (getNextLocation q).2 k).2) := rfl

theorem getNextLocation_no_blacklist (locs : List Location) (i : Nat)
    (hi : i < locs.length) :
    getNextLocation ⟨locs, i, []⟩
      = (some (locs.get ⟨i, hi⟩), ⟨locs, (i + 1) % locs.length, []⟩) := by
  have hlen : ¬ locs.length = 0 := by omega
  obtain ⟨f, hf⟩ : ∃ f, locs.length = f + 1 := ⟨locs.length - 1, by omega⟩
  have haux : ∀ g, getNextLocationAux locs [] i (g + 1)
      = (some (locs.get ⟨i, hi⟩), (i + 1) % locs.length) := by
    intro g
    simp only [getNextLocationAux, List.getElem?_eq_getElem hi]
    simp [List.get_eq_getElem]
  have haux' := haux f
  rw [← hf] at haux'
  unfold getNextLocation
  rw [if_neg hlen]
  simp only [haux']

theorem callNextLocations_cycle (post : List Location) :
    ∀ pre : List Location, post ≠ [] →
      callNextLocations ⟨pre ++ post, pre.length, []⟩ post.length
        = (post.map some, ⟨pre ++ post, 0, []⟩) := by
  induction post with
  | nil => intro pre h; cases h rfl
  | cons x rest ih =>
    intro pre _
    have hi : pre.length < (pre ++ x :: rest).length := by simp
    have hget : (pre ++ x :: rest).get ⟨pre.length, hi⟩ = x := by
      simp [List.get_eq_getElem, List.getElem_append_right (le_refl pre.length)]
    have hstep := getNextLocation_no_blacklist (pre ++ x :: rest) pre.length hi
    rw [hget] at hstep
    cases rest with
    | nil =>
      have hmod : (pre.length + 1) % (pre ++ [x]).length = 0 := by
        simp
      show callNextLocations ⟨pre ++ [x], pre.length, []⟩ (0 + 1)
        = ([some x], ⟨pre ++ [x], 0, []⟩)
      rw [callNextLocations_succ, hstep]
      simp [callNextLocations, hmod]
    | cons y rest' =>
      have hlt : pre.length + 1 < (pre ++ x :: y :: rest').length := by
        simp
      have hmod : (pre.length + 1) % (pre ++ x :: y :: rest').length = pre.length + 1 :=
        Nat.mod_eq_of_lt hlt
      have hIH := ih (pre ++ [x]) (List.cons_ne_nil _ _)
      have heq : (pre ++ [x]) ++ y :: rest' = pre ++ x :: y :: rest' := by simp
      have hlen2 : (pre ++ [x]).length = pre.length + 1 := by simp
      rw [heq, hlen2] at hIH
      show callNextLocations ⟨pre ++ x :: y :: rest', pre.length, []⟩
          ((y :: rest').length + 1)
        = ((x :: y :: rest').map some, ⟨pre ++ x :: y :: rest', 0, []⟩)
      rw [callNextLocations_succ, hstep]
      simp only [hmod]
      simp only [hIH]
      rfl

/-- C3: on a freshly initialized queue over a non-empty location list with
an empty blacklist, `|L|` calls of `getNextLocation` return the sorted
list — each location of `L` exactly once (the output is the sorted
permutation of `L`), in descending priority order with ties broken by
descending success rate — and the next `|L|` calls repeat the same cyclic
sequence. -/
theorem getNextLocation_cycle (L : List Location) (hL : L ≠ []) :
    (callNextLocations (initQueue L) L.length).1 = (sortLocations L).map some ∧
    (sortLocations L).Perm L ∧
    (sortLocations L).Sorted locBefore ∧
    (callNextLocations (callNextLocations (initQueue L) L.length).2 L.length).1
      = (sortLocations L).map some := by
  have hperm : (sortLocations L).Perm L := List.perm_insertionSort locBefore L
  have hlen : (sortLocations L).length = L.length := hperm.length_eq
  have hsne : sortLocations L ≠ [] := by
    intro h
    exact hL (List.length_eq_zero.mp (by rw [← hlen, h]; rfl))
  have hc := callNextLocations_cycle (sortLocations L) [] hsne
  simp only [List.nil_append, List.length_nil] at hc
  rw [hlen] at hc
  have hq : initQueue L = ⟨sortLocations L, 0, []⟩ := rfl
  refine ⟨?_, hperm, List.sorted_insertionSort locBefore L, ?_⟩
  · rw [hq, hc]
  · rw [hq, hc]
    show (callNextLocations ⟨sortLocations L, 0, []⟩ L.length).1 = _
    rw [hc]

/-- C3 witness: the two-location catalog cycles through both locations in
priority order, twice. -/
theorem getNextLocation_cycle_witness :
    (callNextLocations (initQueue [locUK, locUS])
        ([locUK, locUS] : List Location).length).1
      = (sortLocations [locUK, locUS]).map some ∧
    (sortLocations [locUK, locUS]).Perm [locUK, locUS] ∧
    (sortLocations [locUK, locUS]).Sorted locBefore ∧
    (callNextLocations (callNextLocations (initQueue [locUK, locUS])
          ([locUK, locUS] : List Location).length).2
        ([locUK, locUS] : List Location).length).1
      = (sortLocations [locUK, locUS]).map some :=
  getNextLocation_cycle [locUK, locUS] (List.cons_ne_nil _ _)

/-- C2: `cancelSearch` on an id absent from the in-memory active-operation
map returns `false` and leaves all state unchanged; on a present id it
returns `true`, persists the operation as `cancelled` with an end time to
the store, and removes the id from the active map; and the location loop's
per-iteration membership check returns at the next location boundary once
the operation is no longer active. -/
theorem cancelSearch_spec (st : OrchestratorState) (operationId : String) (now : Int) :
    (dbLookup st.activeOperations operationId = none →
       cancelSearch st operationId now = (false, st)) ∧
    (∀ op, dbLookup st.activeOperations operationId = some op →
       (cancelSearch st operationId now).1 = true ∧
       dbLookup (cancelSearch st operationId now).2.activeOperations operationId
         = none ∧
       (∀ rec, dbLookup st.store operationId = some rec →
          dbLookup (cancelSearch st operationId now).2.store operationId
            = some { rec with status := OpStatus.cancelled, endTime := some now })) ∧
    (∀ (n : Nat) (now' : Int) (nm : String) (out : LocOutcome) (rest : List LocStep)
       (i cf : Nat) (s : RunState),
       runLocationLoop n now' (⟨nm, out, true⟩ :: rest) i cf s = s) := by
  refine ⟨fun h => ?_, fun op h => ?_, fun n now' nm out rest i cf s => rfl⟩
  · simp [cancelSearch, h]
  · refine ⟨by simp [cancelSearch, h], ?_, fun rec hrec => ?_⟩
    · simp only [cancelSearch, h]
      exact dbLookup_filter_out st.activeOperations operationId
    · simp only [cancelSearch, h]
      have hmap := dbLookup_map_update st.store operationId
        (fun r => updateSearchOperation r
          { status := some OpStatus.cancelled, endTime := some now })
      have h2 : (dbLookup st.store operationId).map
          (fun r => updateSearchOperation r
            { status := some OpStatus.cancelled, endTime := some now })
          = some { rec with status := OpStatus.cancelled, endTime := some now } := by
        rw [hrec]; rfl
      exact hmap.trans h2

/-- C2 witness: cancelling the single active operation of a concrete
orchestrator state, and cancelling an unknown id. -/
theorem cancelSearch_spec_witness :
    (cancelSearch
        (OrchestratorState.mk
          [("op-1", SearchOperation.mk "op-1" "q" OpStatus.running 0 none 3 1 2
              (some "Boston") (1/3) none "cfg")]
          [("op-1", SearchOperation.mk "op-1" "q" OpStatus.running 0 none 3 1 2
              (some "Boston") (1/3) none "cfg")])
        "op-1" 100).1 = true ∧
    dbLookup (cancelSearch
        (OrchestratorState.mk
          [("op-1", SearchOperation.mk "op-1" "q" OpStatus.running 0 none 3 1 2
              (some "Boston") (1/3) none "cfg")]
          [("op-1", SearchOperation.mk "op-1" "q" OpStatus.running 0 none 3 1 2
              (some "Boston") (1/3) none "cfg")])
        "op-1" 100).2.activeOperations "op-1" = none ∧
    dbLookup (cancelSearch
        (OrchestratorState.mk
          [("op-1", SearchOperation.mk "op-1" "q" OpStatus.running 0 none 3 1 2
              (some "Boston") (1/3) none "cfg")]
          [("op-1", SearchOperation.mk "op-1" "q" OpStatus.running 0 none 3 1 2
              (some "Boston") (1/3) none "cfg")])
        "op-1" 100).2.store "op-1"
      = some { SearchOperation.mk "op-1" "q" OpStatus.running 0 none 3 1 2
            (some "Boston") (1/3) none "cfg" with
          status := OpStatus.cancelled, endTime := some 100 } ∧
    cancelSearch (OrchestratorState.mk [] []) "op-9" 100
      = (false, OrchestratorState.mk [] []) := by
  have h2 := (cancelSearch_spec
    (OrchestratorState.mk
      [("op-1", SearchOperation.mk "op-1" "q" OpStatus.running 0 none 3 1 2
          (some "Boston") (1/3) none "cfg")]
      [("op-1", SearchOperation.mk "op-1" "q" OpStatus.running 0 none 3 1 2
          (some "Boston") (1/3) none "cfg")])
    "op-1" 100).2.1
    (SearchOperation.mk "op-1" "q" OpStatus.running 0 none 3 1 2
      (some "Boston") (1/3) none "cfg") rfl
  exact ⟨h2.1, h2.2.1, h2.2.2 _ rfl,
    (cancelSearch_spec (OrchestratorState.mk [] []) "op-9" 100).1 rfl⟩

/-! ## Orchestrator run lemmas (C1) -/

theorem runLocationLoop_cons_ok (n : Nat) (now : Int) (nm : String) (c : Nat)
    (rest : List LocStep) (i cf : Nat) (st : RunState) :
    runLocationLoop n now (⟨nm, LocOutcome.ok c, false⟩ :: rest) i cf st
      = runLocationLoop n now rest (i + 1) 0
          { st with currentLocation := some nm, progress := (i : ℚ) / (n : ℚ),
                    totalResults := st.totalResults + c,
                    searchedLocations := i + 1 } := rfl

theorem runLocationLoop_cons_err_break (n : Nat) (now : Int) (nm : String)
    (rest : List LocStep) (i cf : Nat) (st : RunState) (h : cf + 1 ≥ 3) :
    runLocationLoop n now (⟨nm, LocOutcome.err, false⟩ :: rest) i cf st
      = completeOp { st with currentLocation := some nm,
                             progress := (i : ℚ) / (n : ℚ) } now := by
  simp [runLocationLoop, h]

theorem runLocationLoop_cons_err_cont (n : Nat) (now : Int) (nm : String)
    (rest : List LocStep) (i cf : Nat) (st : RunState) (h : ¬ cf + 1 ≥ 3) :
    runLocationLoop n now (⟨nm, LocOutcome.err, false⟩ :: rest) i cf st
      = runLocationLoop n now rest (i + 1) (cf + 1)
          { st with currentLocation := some nm,
                    progress := (i : ℚ) / (n : ℚ) } := by
  simp [runLocationLoop, h]

theorem errAt_cons_succ (step : LocStep) (steps : List LocStep) (i : Nat) :
    errAt (step :: steps) (i + 1) ↔ errAt steps i := by
  simp [errAt, List.getElem?_cons_succ]

theorem abortsFrom_of_err_head (steps : List LocStep) (h0 : errAt steps 0) :
    ∀ cf, 2 ≤ cf → abortsFrom cf steps := by
  intro cf hcf
  obtain ⟨step, hstep, herr⟩ := h0
  cases steps with
  | nil => simp at hstep
  | cons s rest =>
    rw [List.getElem?_cons_zero] at hstep
    injection hstep with hstep
    subst hstep
    simp only [abortsFrom, herr]
    exact Or.inl (by omega)

theorem abortsFrom_of_err_pair (steps : List LocStep) (h0 : errAt steps 0)
    (h1 : errAt steps 1) : ∀ cf, 1 ≤ cf → abortsFrom cf steps := by
  intro cf hcf
  obtain ⟨step, hstep, herr⟩ := h0
  cases steps with
  | nil => simp at hstep
  | cons s rest =>
    rw [List.getElem?_cons_zero] at hstep
    injection hstep with hstep
    subst hstep
    simp only [abortsFrom, herr]
    exact Or.inr (abortsFrom_of_err_head rest
      ((errAt_cons_succ s rest 0).mp h1) (cf + 1) (by omega))

theorem abortsFrom_of_triple (steps : List LocStep) :
    ∀ i, errAt steps i → errAt steps (i + 1) → errAt steps (i + 2) →
      ∀ cf, abortsFrom cf steps := by
  induction steps with
  | nil =>
    intro i h _ _ _
    obtain ⟨st, hst, _⟩ := h
    simp at hst
  | cons s rest ih =>
    intro i h0 h1 h2 cf
    cases i with
    | zero =>
      obtain ⟨step, hstep, herr⟩ := h0
      rw [List.getElem?_cons_zero] at hstep
      injection hstep with hstep
      subst hstep
      simp only [abortsFrom, herr]
      exact Or.inr (abortsFrom_of_err_pair rest
        ((errAt_cons_succ s rest 0).mp h1)
        ((errAt_cons_succ s rest 1).mp h2) (cf + 1) (by omega))
    | succ j =>
      have h0' := (errAt_cons_succ s rest j).mp h0
      have h1' := (errAt_cons_succ s rest (j + 1)).mp h1
      have h2' := (errAt_cons_succ s rest (j + 2)).mp h2
      cases houtcome : s.outcome with
      | ok c =>
        simp only [abortsFrom, houtcome]
        exact ih j h0' h1' h2' 0
      | err =>
        simp only [abortsFrom, houtcome]
        exact Or.inr (ih j h0' h1' h2' (cf + 1))

theorem runLocationLoop_abort (pending : List LocStep) :
    ∀ (n : Nat) (now : Int) (i cf : Nat) (st : RunState),
      (∀ s ∈ pending, s.cancelled = false) →
      abortsFrom cf pending →
      st.searchedLocations + cf ≤ i →
      (runLocationLoop n now pending i cf st).status = OpStatus.completed ∧
      (runLocationLoop n now pending i cf st).searchedLocations + 3
        ≤ i + pending.length := by
  induction pending with
  | nil => intro n now i cf st _ hab _; cases hab
  | cons step rest ih =>
    obtain ⟨nm, outc, canc⟩ := step
    intro n now i cf st hnc hab hinv
    have hcanc : canc = false := hnc _ (List.mem_cons_self _ _)
    subst hcanc
    have hnc' : ∀ s ∈ rest, s.cancelled = false :=
      fun s hs => hnc s (List.mem_cons_of_mem _ hs)
    cases outc with
    | ok c =>
      have hab' : abortsFrom 0 rest := by
        simpa only [abortsFrom] using hab
      rw [runLocationLoop_cons_ok]
      have hres := ih n now (i + 1) 0
        { st with currentLocation := some nm, progress := (i : ℚ) / (n : ℚ),
                  totalResults := st.totalResults + c, searchedLocations := i + 1 }
        hnc' hab' (by show i + 1 + 0 ≤ i + 1; omega)
      refine ⟨hres.1, ?_⟩
      have h2 := hres.2
      simp only [List.length_cons]
      omega
    | err =>
      by_cases hb : cf + 1 ≥ 3
      · rw [runLocationLoop_cons_err_break n now nm rest i cf st hb]
        refine ⟨rfl, ?_⟩
        show st.searchedLocations + 3 ≤ i + (rest.length + 1)
        omega
      · have hab' : abortsFrom (cf + 1) rest := by
          have h := hab
          simp only [abortsFrom] at h
          rcases h with h | h
          · exact absurd h hb
          · exact h
        rw [runLocationLoop_cons_err_cont n now nm rest i cf st hb]
        have hres := ih n now (i + 1) (cf + 1)
          { st with currentLocation := some nm, progress := (i : ℚ) / (n : ℚ) }
          hnc' hab' (by show st.searchedLocations + (cf + 1) ≤ i + 1; omega)
        refine ⟨hres.1, ?_⟩
        have h2 := hres.2
        simp only [List.length_cons]
        omega

theorem runLocationLoop_abort_ignores_tail (pre : List LocStep) :
    ∀ (rest rest' : List LocStep) (n n' : Nat) (now : Int) (i cf : Nat)
      (st st' : RunState),
      (∀ s ∈ pre, s.cancelled = false) →
      abortsFrom cf pre →
      st.status = st'.status →
      st.searchedLocations = st'.searchedLocations →
      st.totalResults = st'.totalResults →
      st.currentLocation = st'.currentLocation →
      st.endTime = st'.endTime →
      runLocationLoop n now (pre ++ rest) i cf st
        = runLocationLoop n' now (pre ++ rest') i cf st' := by
  induction pre with
  | nil => intro rest rest' n n' now i cf st st' _ hab _ _ _ _ _; cases hab
  | cons step pre ih =>
    obtain ⟨nm, outc, canc⟩ := step
    intro rest rest' n n' now i cf st st' hnc hab h1 h2 h3 h4 h5
    have hcanc : canc = false := hnc _ (List.mem_cons_self _ _)
    subst hcanc
    have hnc' : ∀ s ∈ pre, s.cancelled = false :=
      fun s hs => hnc s (List.mem_cons_of_mem _ hs)
    cases outc with
    | ok c =>
      have hab' : abortsFrom 0 pre := by
        simpa only [abortsFrom] using hab
      rw [List.cons_append, List.cons_append, runLocationLoop_cons_ok,
        runLocationLoop_cons_ok]
      exact ih rest rest' n n' now (i + 1) 0 _ _ hnc' hab' h1 rfl
        (by show st.totalResults + c = st'.totalResults + c; rw [h3]) rfl h5
    | err =>
      by_cases hb : cf + 1 ≥ 3
      · rw [List.cons_append, List.cons_append,
          runLocationLoop_cons_err_break n now nm (pre ++ rest) i cf st hb,
          runLocationLoop_cons_err_break n' now nm (pre ++ rest') i cf st' hb]
        unfold completeOp
        ext <;> simp [h2, h3]
      · have hab' : abortsFrom (cf + 1) pre := by
          have h := hab
          simp only [abortsFrom] at h
          rcases h with h | h
          · exact absurd h hb
          · exact h
        rw [List.cons_append, List.cons_append,
          runLocationLoop_cons_err_cont n now nm (pre ++ rest) i cf st hb,
          runLocationLoop_cons_err_cont n' now nm (pre ++ rest') i cf st' hb]
        exact ih rest rest' n n' now (i + 1) (cf + 1) _ _ hnc' hab' h1 h2 h3 rfl h5

/-- C1: in `processGlobalSearch`, for every uncancelled run whose work
queue has three consecutive location-level exceptions, processing stops
before the end of the queue (whatever follows the aborting prefix cannot
influence the outcome), the final status is `completed` (not `failed`),
`searchedLocations` stays strictly below `totalLocations`, and a
successful location resets the consecutive-failure counter to zero (the
continuation after a success is independent of the incoming counter). -/
theorem processGlobalSearch_three_failures
    (steps : List LocStep) (now : Int)
    (hnc : ∀ s ∈ steps, s.cancelled = false)
    (i : Nat) (h0 : errAt steps i) (h1 : errAt steps (i + 1))
    (h2 : errAt steps (i + 2)) :
    (processGlobalSearch steps now).status = OpStatus.completed ∧
    (processGlobalSearch steps now).searchedLocations < steps.length ∧
    (∀ (pre rest rest' : List LocStep) (now' : Int),
       (∀ s ∈ pre, s.cancelled = false) → abortsFrom 0 pre →
       processGlobalSearch (pre ++ rest) now'
         = processGlobalSearch (pre ++ rest') now') ∧
    (∀ (n : Nat) (now' : Int) (nm : String) (c : Nat) (rest : List LocStep)
       (i' cf cf' : Nat) (st : RunState),
       runLocationLoop n now' (⟨nm, LocOutcome.ok c, false⟩ :: rest) i' cf st
         = runLocationLoop n now' (⟨nm, LocOutcome.ok c, false⟩ :: rest) i' cf' st) := by
  have hab : abortsFrom 0 steps := abortsFrom_of_triple steps i h0 h1 h2 0
  have hrun := runLocationLoop_abort steps steps.length now 0 0
    { status := OpStatus.running, searchedLocations := 0, totalResults := 0,
      progress := 0, currentLocation := none, endTime := none }
    hnc hab (by show 0 + 0 ≤ 0; omega)
  refine ⟨hrun.1, ?_, ?_, ?_⟩
  · have h3 := hrun.2
    show (runLocationLoop steps.length now steps 0 0
      { status := OpStatus.running, searchedLocations := 0, totalResults := 0,
        progress := 0, currentLocation := none, endTime := none }).searchedLocations
      < steps.length
    omega
  · intro pre rest rest' now' hncp habp
    exact runLocationLoop_abort_ignores_tail pre rest rest'
      (pre ++ rest).length (pre ++ rest').length now' 0 0 _ _ hncp habp
      rfl rfl rfl rfl rfl
  · intro n now' nm c rest i' cf cf' st
    rw [runLocationLoop_cons_ok, runLocationLoop_cons_ok]

/-- C1 witness: the five-location queue with failures at positions 1-3. -/
theorem processGlobalSearch_three_failures_witness :
    (processGlobalSearch stepsEx 99).status = OpStatus.completed ∧
    (processGlobalSearch stepsEx 99).searchedLocations < stepsEx.length ∧
    (∀ (pre rest rest' : List LocStep) (now' : Int),
       (∀ s ∈ pre, s.cancelled = false) → abortsFrom 0 pre →
       processGlobalSearch (pre ++ rest) now'
         = processGlobalSearch (pre ++ rest') now') ∧
    (∀ (n : Nat) (now' : Int) (nm : String) (c : Nat) (rest : List LocStep)
       (i' cf cf' : Nat) (st : RunState),
       runLocationLoop n now' (⟨nm, LocOutcome.ok c, false⟩ :: rest) i' cf st
         = runLocationLoop n now' (⟨nm, LocOutcome.ok c, false⟩ :: rest) i' cf' st) :=
  processGlobalSearch_three_failures stepsEx 99 (by decide) 1
    ⟨⟨"B", LocOutcome.err, false⟩, rfl, rfl⟩
    ⟨⟨"C", LocOutcome.err, false⟩, rfl, rfl⟩
    ⟨⟨"D", LocOutcome.err, false⟩, rfl, rfl⟩


/-- C6 witness: a freshly completed operation gets estimate zero and a
running one with no searched locations gets none. -/
theorem calculateEstimatedTime_spec_witness :
    calculateEstimatedTime
      (SearchOperation.mk "op-2" "q" OpStatus.completed 0 (some 9) 3 0 0 none 0 none "cfg")
      42 = some 0 :=
  (calculateEstimatedTime_spec
    (SearchOperation.mk "op-2" "q" OpStatus.completed 0 (some 9) 3 0 0 none 0 none "cfg")
    42).1 (Or.inl rfl)

end GoogleSearchMCP
